import Mathlib

/-!
Shallow embedding of the probing / scheduling / aggregation engine of the
Uptime-page repository (src/app/services/ping_service.py and
src/app/services/server_service.py, data model in src/app/models.py).

Timestamps are integers (seconds since an epoch); `date_trunc` at hourly or
daily resolution is flooring to a multiple of 3600 resp. 86400 seconds.
Python floats are embedded as exact rationals; Python's `round(x, n)`
(banker's rounding, half to even) is embedded exactly on rationals.
-/

namespace Uptime

/-- StatusEnum from src/app/models.py: a check outcome is UP or DOWN. -/
inductive StatusEnum
  | UP
  | DOWN
  deriving DecidableEq

/-- UptimeRecord from src/app/models.py (the persisted CheckRecord): owning
server, status, optional response time in ms, timestamp. The surrogate
primary key column is irrelevant to the claims and omitted. -/
structure UptimeRecord where
  server_id : ℤ
  status : StatusEnum
  response_time_ms : Option ℚ
  timestamp : ℤ
  deriving DecidableEq

/-- Server from src/app/models.py (a monitored target). -/
structure Server where
  id : ℤ
  name : String
  url : String
  logo_url : Option String
  display_order : ℤ
  created_at : ℤ
  deriving DecidableEq

/-- Python's round(x): nearest integer, ties to the even integer, computed on
an exact rational.  The floor is taken on num/den with floored division. -/
def pyRound (q : ℚ) : ℤ :=
  let f : ℤ := Int.fdiv q.num (q.den : ℤ)
  if q - (f : ℚ) < 1/2 then f
  else if (1/2 : ℚ) < q - (f : ℚ) then f + 1
  else if f % 2 = 0 then f else f + 1

/-- Python's round(x, 2). -/
def round2 (q : ℚ) : ℚ := (pyRound (q * 100) : ℚ) / 100

/-- Python's round(x, 3). -/
def round3 (q : ℚ) : ℚ := (pyRound (q * 1000) : ℚ) / 1000

/-- The possible results of the HTTP GET performed by ping_server
(src/app/services/ping_service.py): a response carrying a status code and the
measured elapsed time in milliseconds, or one of the three exception classes
the function catches (httpx.TimeoutException, httpx.RequestError, or any
other unexpected exception). -/
inductive HttpResult
  | response (status_code : ℕ) (elapsed_ms : ℚ)
  | timeout
  | requestError
  | unexpectedError
  deriving DecidableEq

/-- ping_server (src/app/services/ping_service.py, lines 48-91): status codes
below 400 are UP, other responses are DOWN, both keeping the measured
response time rounded to 2 decimals; every caught exception yields DOWN with
no response time. -/
def ping_server (r : HttpResult) : StatusEnum × Option ℚ :=
  match r with
  | .response code elapsed =>
      if code < 400 then (.UP, some (round2 elapsed))
      else (.DOWN, some (round2 elapsed))
  | .timeout => (.DOWN, none)
  | .requestError => (.DOWN, none)
  | .unexpectedError => (.DOWN, none)

/-- Aggregation resolution of _calculate_bars: the `resolution` argument is
compared against "day", anything else is treated as "hour". -/
inductive Resolution
  | hour
  | day
  deriving DecidableEq

/-- Width of one bucket in seconds: timedelta(hours=1) / timedelta(days=1). -/
def Resolution.unit : Resolution → ℤ
  | .hour => 3600
  | .day => 86400

/-- date_trunc(trunc_interval, t) (and, for daily resolution, .date()):
floor t to a multiple of the resolution unit.  Lean's % on ℤ is Int.emod,
which like Python's % is non-negative for a positive modulus. -/
def dateTrunc (res : Resolution) (t : ℤ) : ℤ := t - t % res.unit

/-- The rows fetched by the SQL query of _calculate_bars
(src/app/services/server_service.py, lines 251-265): records of the given
server with timestamp >= since. -/
def fetchedRecords (recs : List UptimeRecord) (server_id since : ℤ) :
    List UptimeRecord :=
  recs.filter (fun r => decide (r.server_id = server_id ∧ since ≤ r.timestamp))

/-- One GROUP BY group of that query: the fetched records whose truncated
timestamp equals the given bucket key. -/
def groupRecords (recs : List UptimeRecord) (server_id since : ℤ)
    (res : Resolution) (key : ℤ) : List UptimeRecord :=
  (fetchedRecords recs server_id since).filter
    (fun r => decide (dateTrunc res r.timestamp = key))

/-- The per-group aggregates used by _calculate_bars, after the `or 0`
defaulting applied to the fetched row (lines 284-291): count(), the UP / DOWN
case sums, and avg(response_time_ms). -/
structure GroupData where
  total : ℕ
  up : ℕ
  down : ℕ
  avg_latency : ℚ
  deriving DecidableEq

/-- SQL AVG(response_time_ms) over a group combined with the `or 0` default:
NULL response times are ignored; if every response time is NULL the SQL
average is NULL and `row.avg_latency or 0` turns it into 0.  (An average of
exactly 0 is also mapped to 0 by `or 0`, which is the same value.) -/
def avgLatency (l : List UptimeRecord) : ℚ :=
  let rts := l.filterMap (fun r => r.response_time_ms)
  if rts.length = 0 then 0 else rts.sum / (rts.length : ℚ)

/-- Aggregate one group of records, as the SQL query plus the `or 0`
defaulting does.  An empty group aggregates to exactly the dictionary default
used by `grouped_data.get(key, {"total": 0, "up": 0, "down": 0,
"avg_latency": 0})`. -/
def aggregate (l : List UptimeRecord) : GroupData :=
  { total := l.length
    up := (l.filter (fun r => decide (r.status = .UP))).length
    down := (l.filter (fun r => decide (r.status = .DOWN))).length
    avg_latency := avgLatency l }

/-- One element of the bars list built by _calculate_bars (lines 335-341).
For daily resolution the code turns the date back into a midnight datetime,
which is the same instant as the truncated timestamp, so `date` is the bucket
start in both resolutions. -/
structure Bar where
  date : ℤ
  status : String
  uptime_percentage : ℚ
  checks : ℕ
  avg_response_time_ms : Option ℚ
  deriving DecidableEq

/-- uptime_pct = (data["up"] / total * 100) if total > 0 else 0. -/
def uptimePct (g : GroupData) : ℚ :=
  if 0 < g.total then (g.up : ℚ) / (g.total : ℚ) * 100 else 0

/-- The status classification of _calculate_bars (lines 324-333). -/
def barStatus (g : GroupData) : String :=
  if g.total = 0 then "unknown"
  else if uptimePct g < 50 then "down"
  else if uptimePct g < 100 then "partial"
  else if 1000 ≤ g.avg_latency then "degraded"
  else "up"

/-- Build one bar from its bucket start and group aggregates
(lines 310-341). -/
def mkBar (current : ℤ) (g : GroupData) : Bar :=
  { date := current
    status := barStatus g
    uptime_percentage := round2 (uptimePct g)
    checks := g.total
    avg_response_time_ms :=
      if 0 < g.total then some (round2 g.avg_latency) else none }

/-- The bucket key of iteration i of the generation loop: the loop starts at
now - (count-1) units truncated to the resolution (`.date()` /
`.replace(minute=0, second=0, microsecond=0)`) and adds one unit per
iteration. -/
def barKey (now : ℤ) (count : ℕ) (res : Resolution) (i : ℕ) : ℤ :=
  dateTrunc res (now - ((count : ℤ) - 1) * res.unit) + (i : ℤ) * res.unit

/-- _calculate_bars (src/app/services/server_service.py, lines 232-348),
for one server: fetch records with timestamp >= now - count units, group them
by truncated timestamp, and emit exactly `count` bars, one per generated
bucket key, each bucket defaulting to the all-zero group when no fetched
record truncates onto its key. -/
def calculate_bars (recs : List UptimeRecord) (server_id now : ℤ)
    (count : ℕ) (res : Resolution) : List Bar :=
  let since := now - (count : ℤ) * res.unit
  (List.range count).map (fun i =>
    mkBar (barKey now count res i)
      (aggregate (groupRecords recs server_id since res (barKey now count res i))))

/-- One GROUP BY (server_id, bucket) group of the bulk query of
_calculate_bars_bulk (lines 373-411): the query fetches records whose
server_id is in the requested list with timestamp >= since, and the rows are
then keyed by server and truncated timestamp. -/
def bulkGroupRecords (recs : List UptimeRecord) (server_ids : List ℤ)
    (server_id since : ℤ) (res : Resolution) (key : ℤ) : List UptimeRecord :=
  (recs.filter (fun r => decide (r.server_id ∈ server_ids ∧ since ≤ r.timestamp))).filter
    (fun r => decide (r.server_id = server_id ∧ dateTrunc res r.timestamp = key))

/-- _calculate_bars_bulk (src/app/services/server_service.py, lines 351-469):
empty id list short-circuits to an empty map; otherwise one bar list per
requested server id, generated exactly as in _calculate_bars but reading the
per-server groups out of the single bulk query. -/
def calculate_bars_bulk (recs : List UptimeRecord) (server_ids : List ℤ)
    (now : ℤ) (count : ℕ) (res : Resolution) : List (ℤ × List Bar) :=
  if server_ids.isEmpty then []
  else
    let since := now - (count : ℤ) * res.unit
    server_ids.map (fun sid =>
      (sid, (List.range count).map (fun i =>
        mkBar (barKey now count res i)
          (aggregate (bulkGroupRecords recs server_ids sid since res (barKey now count res i))))))

/-- get_uptime_bars (src/app/services/server_service.py, lines 472-482): the
requested_days argument is ignored and the bars are always computed over 24
hourly buckets ending at the snapshotted now. -/
def get_uptime_bars (recs : List UptimeRecord) (server : Server)
    (requested_days : ℕ) (now : ℤ) : List Bar :=
  calculate_bars recs server.id now 24 .hour

/-- The latest-record selection of get_servers_with_uptime_bars
(lines 497-518): the record of the server carrying the maximal timestamp
(on ties, a later row wins, matching the dict comprehension). -/
def latestRecord (recs : List UptimeRecord) (server_id : ℤ) :
    Option UptimeRecord :=
  (recs.filter (fun r => decide (r.server_id = server_id))).foldl
    (fun acc r =>
      match acc with
      | none => some r
      | some a => if a.timestamp ≤ r.timestamp then some r else some a) none

/-- total_checks = sum(b["checks"] for b in bars). -/
def sumChecks (bars : List Bar) : ℕ := (bars.map (fun b => b.checks)).sum

/-- sum(b["uptime_percentage"] * b["checks"] for b in bars). -/
def weightedSum (bars : List Bar) : ℚ :=
  (bars.map (fun b => b.uptime_percentage * (b.checks : ℚ))).sum

/-- The weighted_uptime computation of get_servers_with_uptime_bars
(lines 531-538): check-count weighted average of the bar percentages, 0 when
there are no checks at all. -/
def weightedUptime (bars : List Bar) : ℚ :=
  if 0 < sumChecks bars then weightedSum bars / (sumChecks bars : ℚ) else 0

/-- One element of the result list of get_servers_with_uptime_bars
(lines 540-553). -/
structure ServerData where
  id : ℤ
  name : String
  url : String
  logo_url : Option String
  display_order : ℤ
  created_at : ℤ
  current_status : Option StatusEnum
  last_ping : Option ℤ
  response_time_ms : Option ℚ
  uptime_percentage : ℚ
  uptime_bars : List Bar
  deriving DecidableEq

/-- get_servers_with_uptime_bars (src/app/services/server_service.py,
lines 485-555): the days argument is ignored; bars come from the bulk
aggregation over 24 hourly buckets; the reported uptime_percentage is the
weighted average rounded to 3 decimals. -/
def get_servers_with_uptime_bars (recs : List UptimeRecord)
    (servers : List Server) (days : ℕ) (now : ℤ) : List ServerData :=
  if servers.isEmpty then []
  else
    let bars_map := calculate_bars_bulk recs (servers.map (fun s => s.id)) now 24 .hour
    servers.map (fun server =>
      let record := latestRecord recs server.id
      let bars := (bars_map.lookup server.id).getD []
      { id := server.id
        name := server.name
        url := server.url
        logo_url := server.logo_url
        display_order := server.display_order
        created_at := server.created_at
        current_status := record.map (fun r => r.status)
        last_ping := record.map (fun r => r.timestamp)
        response_time_ms := record.bind (fun r => r.response_time_ms)
        uptime_percentage := round3 (weightedUptime bars)
        uptime_bars := bars })

/-- How one probe-and-record attempt of ping_all_servers behaves for a given
target: either ping_server returns normally (with some status and optional
response time), or a true runtime fault is raised while probing/recording and
caught by the except branch of ping_and_record. -/
inductive ProbeBehavior
  | ok (status : StatusEnum) (response_time : Option ℚ)
  | fault
  deriving DecidableEq

/-- ping_and_record (src/app/services/ping_service.py, lines 127-153): the
normal path records the classified outcome; the except branch still records
the target as DOWN with no response time.  Either way exactly one record is
added; t is the timestamp the store assigns. -/
def ping_and_record (server : Server) (b : ProbeBehavior) (t : ℤ) :
    UptimeRecord :=
  match b with
  | .ok st rt =>
      { server_id := server.id, status := st, response_time_ms := rt, timestamp := t }
  | .fault =>
      { server_id := server.id, status := .DOWN, response_time_ms := none, timestamp := t }

/-- ping_all_servers (src/app/services/ping_service.py, lines 94-124): no
servers means an early return with nothing recorded; otherwise one
ping_and_record per server (the i-th probe behaving as behave i), all
committed together. -/
def ping_all_servers (servers : List Server) (behave : ℕ → ProbeBehavior)
    (t : ℤ) : List UptimeRecord :=
  if servers.isEmpty then []
  else servers.enum.map (fun p => ping_and_record p.2 (behave p.1) t)

/-- The scheduler globals of src/app/services/ping_service.py: `running`
models _running; `has_task` models `_ping_task is not None and not
_ping_task.done()`; `active_loops` counts the ping_loop coroutines currently
alive (created by start, terminated by the cancel-and-await of stop). -/
structure SchedulerState where
  running : Bool
  has_task : Bool
  active_loops : ℕ
  deriving DecidableEq

/-- Module import state: _running = False, _ping_task = None, no loop. -/
def initialScheduler : SchedulerState :=
  { running := false, has_task := false, active_loops := 0 }

/-- start_ping_scheduler (lines 172-182): an early return when a live task
exists, otherwise set _running and create one new ping_loop task. -/
def start_ping_scheduler (s : SchedulerState) : SchedulerState :=
  if s.has_task then s
  else { running := true, has_task := true, active_loops := s.active_loops + 1 }

/-- stop_ping_scheduler (lines 185-199): clear _running, and if a task is
held, cancel it, await its termination and drop the handle. -/
def stop_ping_scheduler (s : SchedulerState) : SchedulerState :=
  { running := false
    has_task := false
    active_loops := if s.has_task then s.active_loops - 1 else s.active_loops }

/-- External lifecycle calls made against the scheduler. -/
inductive SchedEvent
  | start
  | stop

/-- Apply one lifecycle call. -/
def schedStep (s : SchedulerState) : SchedEvent → SchedulerState
  | .start => start_ping_scheduler s
  | .stop => stop_ping_scheduler s

/-- The scheduler state after a sequence of lifecycle calls from module
import. -/
def schedRun (evs : List SchedEvent) : SchedulerState :=
  evs.foldl schedStep initialScheduler

/-- The RUNNING state of the spec's two-state machine. -/
def SchedulerState.RUNNING (s : SchedulerState) : Prop :=
  s.running = true ∧ s.has_task = true

/-- The STOPPED state of the spec's two-state machine. -/
def SchedulerState.STOPPED (s : SchedulerState) : Prop :=
  s.running = false ∧ s.has_task = false

/-- Modelled from the spec: the per-bucket status-tier classification rules
of section 4.4, first match wins, with the degraded rule reading the average
response time only when it is present. -/
def specStatusTier (checks : ℕ) (pct : ℚ) (avg : Option ℚ) : String :=
  if checks = 0 then "unknown"
  else if pct < 50 then "down"
  else if 50 ≤ pct ∧ pct < 100 then "partial"
  else
    match avg with
    | some a => if pct = 100 ∧ 1000 ≤ a then "degraded" else "up"
    | none => "up"

/-- Modelled from the spec: uptime percentage of a bucket, up/total × 100. -/
def specPct (g : GroupData) : ℚ := (g.up : ℚ) / (g.total : ℚ) * 100

/-- Modelled from the spec: the average response time of a bucket, present
only when at least one record in the bucket has a response time. -/
def avgLatencyOpt (l : List UptimeRecord) : Option ℚ :=
  let rts := l.filterMap (fun r => r.response_time_ms)
  if rts.length = 0 then none else some (rts.sum / (rts.length : ℚ))

/-! Helper lemmas. -/

theorem pyRound_nonneg {q : ℚ} (h : 0 ≤ q) : 0 ≤ pyRound q := by
  have hnum : 0 ≤ q.num := Rat.num_nonneg.mpr h
  have hf : 0 ≤ Int.fdiv q.num (q.den : ℤ) :=
    Int.fdiv_nonneg hnum (Int.natCast_nonneg _)
  unfold pyRound
  dsimp only
  split
  · exact hf
  · split
    · omega
    · split <;> omega

theorem round2_nonneg {q : ℚ} (h : 0 ≤ q) : 0 ≤ round2 q := by
  have h100 : (0 : ℚ) ≤ q * 100 := by positivity
  have := pyRound_nonneg h100
  unfold round2
  have hc : (0 : ℚ) ≤ (pyRound (q * 100) : ℚ) := by exact_mod_cast this
  positivity

theorem round2_zero : round2 0 = 0 := by with_unfolding_all rfl

theorem round3_zero : round3 0 = 0 := by with_unfolding_all rfl

theorem aggregate_nil : aggregate [] = ⟨0, 0, 0, 0⟩ := rfl

theorem groupRecords_nil (server_id since : ℤ) (res : Resolution) (key : ℤ) :
    groupRecords [] server_id since res key = [] := rfl

/-! C1 -/

/-- C1: ping_server classifies every probe outcome to UP or DOWN and never
raises: a response with status code < 400 is UP with the measured (rounded)
response time present and non-negative; a response with status code ≥ 400 is
DOWN with the response time still present; a timeout or any other caught
failure is DOWN with no response time. -/
theorem ping_server_classification (code : ℕ) (elapsed : ℚ)
    (h : 0 ≤ elapsed) :
    (code < 400 →
      ping_server (.response code elapsed) = (.UP, some (round2 elapsed)) ∧
        (0 : ℚ) ≤ round2 elapsed) ∧
    (400 ≤ code →
      ping_server (.response code elapsed) = (.DOWN, some (round2 elapsed))) ∧
    ping_server .timeout = (.DOWN, none) ∧
    ping_server .requestError = (.DOWN, none) ∧
    ping_server .unexpectedError = (.DOWN, none) ∧
    (∀ r : HttpResult,
      (ping_server r).1 = .UP ∨ (ping_server r).1 = .DOWN) := by
  refine ⟨?_, ?_, rfl, rfl, rfl, ?_⟩
  · intro hc
    exact ⟨by simp [ping_server, hc], round2_nonneg h⟩
  · intro hc
    have : ¬ code < 400 := by omega
    simp [ping_server, this]
  · intro r
    cases r with
    | response c e =>
        by_cases hc : c < 400 <;> simp [ping_server, hc]
    | timeout => exact Or.inr rfl
    | requestError => exact Or.inr rfl
    | unexpectedError => exact Or.inr rfl

theorem ping_server_classification_witness :
    (0 : ℚ) ≤ 50 ∧ (200 < 400) ∧
      (ping_server (.response 200 50) = (.UP, some (round2 50)) ∧
        (0 : ℚ) ≤ round2 50) :=
  ⟨by norm_num, by norm_num,
    (ping_server_classification 200 50 (by norm_num)).1 (by norm_num)⟩

/-! C2 -/

/-- C2: _calculate_bars returns exactly `count` buckets no matter what the
record set is, and over an empty record set every bucket is "unknown" with 0
checks, uptime percentage 0 and no average response time. -/
theorem calculate_bars_count (recs : List UptimeRecord) (server_id now : ℤ)
    (count : ℕ) (res : Resolution) :
    (calculate_bars recs server_id now count res).length = count ∧
    ∀ b ∈ calculate_bars [] server_id now count res,
      b.status = "unknown" ∧ b.checks = 0 ∧ b.uptime_percentage = 0 ∧
        b.avg_response_time_ms = none := by
  constructor
  · simp [calculate_bars]
  · intro b hb
    simp only [calculate_bars, List.mem_map, List.mem_range] at hb
    obtain ⟨i, _, rfl⟩ := hb
    rw [groupRecords_nil, aggregate_nil]
    refine ⟨rfl, rfl, ?_, rfl⟩
    show round2 (uptimePct ⟨0, 0, 0, 0⟩) = 0
    rw [show uptimePct ⟨0, 0, 0, 0⟩ = 0 from rfl, round2_zero]

theorem calculate_bars_count_witness :
    ((⟨0, "unknown", 0, 0, none⟩ : Bar) ∈ calculate_bars [] 1 0 1 .hour) ∧
      ((⟨0, "unknown", 0, 0, none⟩ : Bar).status = "unknown" ∧
        (⟨0, "unknown", 0, 0, none⟩ : Bar).checks = 0 ∧
        (⟨0, "unknown", 0, 0, none⟩ : Bar).uptime_percentage = 0 ∧
        (⟨0, "unknown", 0, 0, none⟩ : Bar).avg_response_time_ms = none) :=
  ⟨of_decide_eq_true (by with_unfolding_all rfl),
    (calculate_bars_count [] 1 0 1 .hour).2 _
      (of_decide_eq_true (by with_unfolding_all rfl))⟩

/-! C9 -/

/-- The liveness invariant of the scheduler globals: a held, not-done task
handle corresponds to exactly one live ping_loop. -/
def SchedInv (s : SchedulerState) : Prop :=
  s.active_loops = if s.has_task then 1 else 0

theorem schedStep_inv {s : SchedulerState} (h : SchedInv s)
    (e : SchedEvent) : SchedInv (schedStep s e) := by
  cases e with
  | start =>
      by_cases ht : s.has_task
      · simpa [SchedInv, schedStep, start_ping_scheduler, ht] using h
      · simp only [SchedInv, ht, if_false] at h
        simp [SchedInv, schedStep, start_ping_scheduler, ht, h]
  | stop =>
      unfold SchedInv schedStep stop_ping_scheduler at *
      by_cases ht : s.has_task <;> simp [ht] at h ⊢ <;> omega

theorem schedRun_inv (evs : List SchedEvent) : SchedInv (schedRun evs) := by
  have main : ∀ (l : List SchedEvent) (s : SchedulerState),
      SchedInv s → SchedInv (l.foldl schedStep s) := by
    intro l
    induction l with
    | nil => intro s hs; exact hs
    | cons e tl ih => intro s hs; exact ih _ (schedStep_inv hs e)
  exact main evs initialScheduler rfl

/-- C9: the scheduler is a two-state machine: start while RUNNING is a no-op,
stop while STOPPED is a no-op, and from any reachable state stop immediately
followed by start leaves the scheduler RUNNING with exactly one live ping
loop. -/
theorem scheduler_lifecycle :
    (∀ s : SchedulerState, s.RUNNING → start_ping_scheduler s = s) ∧
    (∀ s : SchedulerState, s.STOPPED → stop_ping_scheduler s = s) ∧
    (∀ evs : List SchedEvent,
      (start_ping_scheduler (stop_ping_scheduler (schedRun evs))).RUNNING ∧
      (start_ping_scheduler (stop_ping_scheduler (schedRun evs))).active_loops
        = 1) := by
  refine ⟨?_, ?_, ?_⟩
  · intro s hs
    unfold start_ping_scheduler
    rw [if_pos hs.2]
  · intro s hs
    cases s with
    | mk running has_task active_loops =>
        obtain ⟨h1, h2⟩ := hs
        dsimp at h1 h2
        subst h1; subst h2
        simp [stop_ping_scheduler]
  · intro evs
    have hinv := schedRun_inv evs
    unfold SchedInv at hinv
    constructor
    · exact ⟨rfl, rfl⟩
    · show (if (schedRun evs).has_task then (schedRun evs).active_loops - 1
          else (schedRun evs).active_loops) + 1 = 1
      by_cases ht : (schedRun evs).has_task <;> simp [ht] at hinv ⊢ <;> omega

theorem scheduler_lifecycle_witness :
    (⟨true, true, 1⟩ : SchedulerState).RUNNING ∧
      start_ping_scheduler ⟨true, true, 1⟩ = ⟨true, true, 1⟩ :=
  ⟨⟨rfl, rfl⟩, scheduler_lifecycle.1 ⟨true, true, 1⟩ ⟨rfl, rfl⟩⟩

/-! C10 -/

/-- C10: the exposed bucket operations ignore their window-size argument:
for any two requested day counts the results coincide, and the single-server
operation always aggregates 24 hourly buckets. -/
theorem window_size_ignored (recs : List UptimeRecord) (server : Server)
    (servers : List Server) (d1 d2 : ℕ) (now : ℤ) :
    get_uptime_bars recs server d1 now = get_uptime_bars recs server d2 now ∧
    get_uptime_bars recs server d1 now =
      calculate_bars recs server.id now 24 .hour ∧
    get_servers_with_uptime_bars recs servers d1 now =
      get_servers_with_uptime_bars recs servers d2 now :=
  ⟨rfl, rfl, rfl⟩

/-! C3 -/

theorem up_le_total (l : List UptimeRecord) :
    (aggregate l).up ≤ (aggregate l).total :=
  List.length_filter_le _ l

theorem specPct_le_100 {g : GroupData} (h : 0 < g.total)
    (hle : g.up ≤ g.total) : specPct g ≤ 100 := by
  unfold specPct
  rw [div_mul_eq_mul_div, div_le_iff₀ (by exact_mod_cast h)]
  have h1 : (g.up : ℚ) ≤ (g.total : ℚ) := by exact_mod_cast hle
  nlinarith

theorem barStatus_eq_spec (l : List UptimeRecord) :
    barStatus (aggregate l) =
      specStatusTier l.length (specPct (aggregate l)) (avgLatencyOpt l) := by
  by_cases h0 : l.length = 0
  · unfold barStatus specStatusTier
    rw [if_pos (show (aggregate l).total = 0 from h0), if_pos h0]
  · have hpos : 0 < (aggregate l).total := Nat.pos_of_ne_zero h0
    have hup : (aggregate l).up ≤ (aggregate l).total := up_le_total l
    have hpct : uptimePct (aggregate l) = specPct (aggregate l) := by
      unfold uptimePct specPct
      rw [if_pos hpos]
    have hle : specPct (aggregate l) ≤ 100 := specPct_le_100 hpos hup
    unfold barStatus specStatusTier
    rw [if_neg (show ¬ (aggregate l).total = 0 from h0), if_neg h0, hpct]
    by_cases h1 : specPct (aggregate l) < 50
    · rw [if_pos h1, if_pos h1]
    · rw [if_neg h1, if_neg h1]
      by_cases h2 : specPct (aggregate l) < 100
      · rw [if_pos h2, if_pos ⟨le_of_not_lt h1, h2⟩]
      · have hnp : ¬ (50 ≤ specPct (aggregate l) ∧
            specPct (aggregate l) < 100) := fun hc => h2 hc.2
        rw [if_neg h2, if_neg hnp]
        have h100 : specPct (aggregate l) = 100 :=
          le_antisymm hle (le_of_not_lt h2)
        by_cases hrts : (l.filterMap (fun r => r.response_time_ms)).length = 0
        · have havg : (aggregate l).avg_latency = 0 := by
            show avgLatency l = 0
            simp only [avgLatency]
            rw [if_pos hrts]
          have hopt : avgLatencyOpt l = none := by
            simp only [avgLatencyOpt]
            rw [if_pos hrts]
          rw [havg, hopt, if_neg (by norm_num : ¬ (1000 : ℚ) ≤ 0)]
        · set m : ℚ := (l.filterMap (fun r => r.response_time_ms)).sum /
              ((l.filterMap (fun r => r.response_time_ms)).length : ℚ) with hm
          have havg : (aggregate l).avg_latency = m := by
            show avgLatency l = m
            simp only [avgLatency]
            rw [if_neg hrts]
          have hopt : avgLatencyOpt l = some m := by
            simp only [avgLatencyOpt]
            rw [if_neg hrts]
          rw [havg, hopt]
          show (if (1000 : ℚ) ≤ m then "degraded" else "up") =
            if specPct (aggregate l) = 100 ∧ (1000 : ℚ) ≤ m then "degraded"
              else "up"
          by_cases hd : (1000 : ℚ) ≤ m
          · rw [if_pos hd, if_pos ⟨h100, hd⟩]
          · rw [if_neg hd, if_neg (fun hc => hd hc.2)]

/-- C3: each returned bucket's status tier is exactly the spec's first-match
priority classification (unknown on zero checks, down below 50%, partial
from 50% up to but excluding 100%, degraded at 100% with average response
time present and at least 1000 ms, up otherwise), applied to the bucket's
group of records. -/
theorem bar_status_tiers (recs : List UptimeRecord) (server_id now : ℤ)
    (count : ℕ) (res : Resolution) :
    (calculate_bars recs server_id now count res).map (fun b => b.status) =
      (List.range count).map (fun i =>
        specStatusTier
          (groupRecords recs server_id (now - (count : ℤ) * res.unit) res
            (barKey now count res i)).length
          (specPct (aggregate (groupRecords recs server_id
            (now - (count : ℤ) * res.unit) res (barKey now count res i))))
          (avgLatencyOpt (groupRecords recs server_id
            (now - (count : ℤ) * res.unit) res (barKey now count res i)))) := by
  unfold calculate_bars
  rw [List.map_map]
  exact List.map_congr_left (fun i _ => barStatus_eq_spec _)

/-! C5 -/

theorem lookup_map_self {α : Type} (l : List ℤ) (f : ℤ → α) (sid : ℤ)
    (h : sid ∈ l) :
    (l.map (fun s => (s, f s))).lookup sid = some (f sid) := by
  induction l with
  | nil => cases h
  | cons a tl ih =>
      by_cases hs : sid = a
      · subst hs
        simp [List.lookup]
      · have hba : (sid == a) = false := beq_eq_false_iff_ne.mpr hs
        rcases List.mem_cons.mp h with h1 | h2
        · exact absurd h1 hs
        · simpa [List.lookup, hba] using ih h2

theorem bulkGroupRecords_eq (recs : List UptimeRecord) (server_ids : List ℤ)
    (sid since : ℤ) (res : Resolution) (key : ℤ) (h : sid ∈ server_ids) :
    bulkGroupRecords recs server_ids sid since res key =
      groupRecords recs sid since res key := by
  unfold bulkGroupRecords groupRecords fetchedRecords
  rw [List.filter_filter, List.filter_filter]
  apply List.filter_congr
  intro r _
  by_cases h1 : r.server_id = sid
  · have hm : r.server_id ∈ server_ids := h1 ▸ h
    by_cases h2 : since ≤ r.timestamp <;>
      by_cases h3 : dateTrunc res r.timestamp = key <;>
        simp [h1, h2, h3, hm, h]
  · simp [h1]

/-- C5: _calculate_bars_bulk is bucket-for-bucket identical to running
_calculate_bars once per requested server id with the same records, now,
count and resolution. -/
theorem bulk_eq_single (recs : List UptimeRecord) (server_ids : List ℤ)
    (now : ℤ) (count : ℕ) (res : Resolution) (sid : ℤ)
    (h : sid ∈ server_ids) :
    (calculate_bars_bulk recs server_ids now count res).lookup sid =
      some (calculate_bars recs sid now count res) := by
  unfold calculate_bars_bulk
  rw [if_neg (by simpa [List.isEmpty_iff] using List.ne_nil_of_mem h)]
  rw [lookup_map_self _ _ _ h]
  congr 1
  unfold calculate_bars
  apply List.map_congr_left
  intro i _
  rw [bulkGroupRecords_eq recs server_ids sid _ res _ h]

theorem bulk_eq_single_witness :
    ((1 : ℤ) ∈ [(1 : ℤ)]) ∧
      (calculate_bars_bulk [] [1] 0 1 .hour).lookup 1 =
        some (calculate_bars [] 1 0 1 .hour) :=
  ⟨List.mem_singleton.mpr rfl,
    bulk_eq_single [] [1] 0 1 .hour 1 (List.mem_singleton.mpr rfl)⟩

/-! C6 -/

/-- C6: a batch over K servers records exactly K check records, the i-th for
the i-th server, a faulting probe/record attempt still yielding a DOWN
record with no response time, and a batch over zero servers records
nothing. -/
theorem ping_all_servers_records (servers : List Server)
    (behave : ℕ → ProbeBehavior) (t : ℤ) :
    (ping_all_servers servers behave t).length = servers.length ∧
    (∀ (i : ℕ) (s : Server), servers[i]? = some s →
      (ping_all_servers servers behave t)[i]? =
        some (ping_and_record s (behave i) t)) ∧
    (∀ s : Server, ping_and_record s .fault t =
      { server_id := s.id, status := .DOWN, response_time_ms := none,
        timestamp := t }) ∧
    ping_all_servers [] behave t = [] := by
  refine ⟨?_, ?_, fun s => rfl, rfl⟩
  · unfold ping_all_servers
    split
    · rename_i he
      rw [List.isEmpty_iff.mp he]
      rfl
    · simp
  · intro i s hs
    unfold ping_all_servers
    split
    · rename_i he
      rw [List.isEmpty_iff.mp he] at hs
      simp at hs
    · rw [List.getElem?_map, List.getElem?_enum, hs]
      rfl

theorem ping_all_servers_records_witness :
    (([⟨1, "a", "u", none, 0, 0⟩] : List Server)[0]? =
        some ⟨1, "a", "u", none, 0, 0⟩) ∧
      (ping_all_servers [⟨1, "a", "u", none, 0, 0⟩] (fun _ => .fault) 5)[0]? =
        some (ping_and_record ⟨1, "a", "u", none, 0, 0⟩ .fault 5) :=
  ⟨rfl, (ping_all_servers_records [⟨1, "a", "u", none, 0, 0⟩]
    (fun _ => .fault) 5).2.1 0 _ rfl⟩

/-! C4 -/

theorem reported_uptime_eq (bars : List Bar) :
    round3 (weightedUptime bars) =
      round3 (if sumChecks bars = 0 then 0
        else weightedSum bars / (sumChecks bars : ℚ)) ∧
    (sumChecks bars = 0 → round3 (weightedUptime bars) = 0) := by
  constructor
  · congr 1
    unfold weightedUptime
    rcases Nat.eq_zero_or_pos (sumChecks bars) with hz | hp
    · simp [hz]
    · rw [if_pos hp, if_neg (by omega)]
  · intro h0
    unfold weightedUptime
    rw [if_neg (by omega), round3_zero]

/-- C4 (amended): each reported overall uptime percentage equals the
check-count-weighted average of the bucket uptime percentages rounded to 3
decimals (Python round), and equals 0 when the window contains no checks at
all. -/
theorem overall_uptime_weighted (recs : List UptimeRecord)
    (servers : List Server) (days : ℕ) (now : ℤ) :
    ∀ d ∈ get_servers_with_uptime_bars recs servers days now,
      d.uptime_percentage =
        round3 (if sumChecks d.uptime_bars = 0 then 0
          else weightedSum d.uptime_bars / (sumChecks d.uptime_bars : ℚ)) ∧
      (sumChecks d.uptime_bars = 0 → d.uptime_percentage = 0) := by
  intro d hd
  unfold get_servers_with_uptime_bars at hd
  split at hd
  · simp at hd
  · simp only [List.mem_map] at hd
    obtain ⟨server, hmem, rfl⟩ := hd
    exact ⟨(reported_uptime_eq _).1, (reported_uptime_eq _).2⟩

set_option maxRecDepth 4000 in
theorem overall_uptime_weighted_witness :
    (let d : ServerData :=
      ⟨1, "a", "u", none, 0, 0, none, none, none, 0,
        (List.range 24).map (fun i => ⟨3600 * (i : ℤ), "unknown", 0, 0, none⟩)⟩
    (d ∈ get_servers_with_uptime_bars [] [⟨1, "a", "u", none, 0, 0⟩] 30 82800) ∧
      (d.uptime_percentage =
        round3 (if sumChecks d.uptime_bars = 0 then 0
          else weightedSum d.uptime_bars / (sumChecks d.uptime_bars : ℚ)) ∧
      (sumChecks d.uptime_bars = 0 → d.uptime_percentage = 0))) := by
  intro d
  have hout : get_servers_with_uptime_bars []
      [⟨1, "a", "u", none, 0, 0⟩] 30 82800 = [d] := by
    with_unfolding_all rfl
  have hmem : d ∈ get_servers_with_uptime_bars []
      [⟨1, "a", "u", none, 0, 0⟩] 30 82800 := by
    rw [hout]
    exact List.mem_singleton.mpr rfl
  exact ⟨hmem,
    overall_uptime_weighted [] [⟨1, "a", "u", none, 0, 0⟩] 30 82800 d hmem⟩

set_option maxRecDepth 4000 in
/-- C4 counterexample: with three checks falling into two hourly buckets
(one bucket at 100% with 1 check, one at 50% with 2 checks), the weighted
average is 200/3 ≈ 66.666…, but the reported value is the rounded 66.667,
so the reported value does not equal the weighted-average quotient
exactly. -/
theorem overall_uptime_weighted_cex :
    ((get_servers_with_uptime_bars
        [⟨1, .UP, some 100, 80000⟩, ⟨1, .UP, some 100, 84000⟩,
          ⟨1, .DOWN, none, 84100⟩]
        [⟨1, "a", "u", none, 0, 0⟩] 30 86400).map
      (fun d => (d.uptime_percentage, sumChecks d.uptime_bars,
        weightedSum d.uptime_bars))) = [(66667/1000, 3, 200)] ∧
    ((66667 : ℚ)/1000 ≠ (200 : ℚ)/3) :=
  ⟨by with_unfolding_all rfl, by norm_num⟩

/-! C7 -/

/-- C7 (amended): a bucket's average response time is present iff the bucket
has at least one check; when a bucket has checks but none of them carries a
response time, the SQL NULL average is defaulted to 0 by `or 0` and the
bucket reports an average of 0 rather than an absent value. -/
theorem avg_latency_presence (recs : List UptimeRecord) (server_id now : ℤ)
    (count : ℕ) (res : Resolution) :
    (∀ b ∈ calculate_bars recs server_id now count res,
      b.avg_response_time_ms.isSome ↔ 0 < b.checks) ∧
    (∀ i, i < count →
      (groupRecords recs server_id (now - (count : ℤ) * res.unit) res
          (barKey now count res i)).filterMap (fun r => r.response_time_ms)
        = [] →
      ((calculate_bars recs server_id now count res)[i]?).map
          (fun b => b.avg_response_time_ms) =
        some (if 0 < (groupRecords recs server_id
              (now - (count : ℤ) * res.unit) res (barKey now count res i)).length
          then some 0 else none)) := by
  constructor
  · intro b hb
    simp only [calculate_bars, List.mem_map, List.mem_range] at hb
    obtain ⟨i, _, rfl⟩ := hb
    show (if 0 < _ then some _ else none).isSome ↔ _
    split <;> rename_i h <;> simp [h, mkBar]
  · intro i hi
    set L := groupRecords recs server_id (now - (count : ℤ) * res.unit) res
      (barKey now count res i) with hL
    intro hempty
    have hgb : (calculate_bars recs server_id now count res)[i]? =
        some (mkBar (barKey now count res i) (aggregate L)) := by
      simp [calculate_bars, List.getElem?_map, List.getElem?_range, hi, hL]
    rw [hgb]
    have havg0 : avgLatency L = 0 := by
      simp [avgLatency, hempty]
    show some (if 0 < L.length then some (round2 (avgLatency L)) else none) = _
    rw [havg0, round2_zero]

theorem avg_latency_presence_witness :
    ((0 : ℕ) < 1) ∧
      ((calculate_bars [⟨1, .DOWN, none, 4000⟩] 1 5000 1 .hour)[0]?).map
          (fun b => b.avg_response_time_ms) =
        some (if 0 < (groupRecords [⟨1, .DOWN, none, 4000⟩] 1
              (5000 - ((1 : ℕ) : ℤ) * Resolution.hour.unit) .hour
              (barKey 5000 1 .hour 0)).length
          then some 0 else none) :=
  ⟨by norm_num,
    (avg_latency_presence [⟨1, .DOWN, none, 4000⟩] 1 5000 1 .hour).2 0
      (by norm_num) (by with_unfolding_all rfl)⟩

/-- C7 counterexample: a bucket whose single check is a DOWN record without a
response time still reports an average response time of 0 (a number) rather
than an absent value. -/
theorem avg_latency_presence_cex :
    (calculate_bars [⟨1, .DOWN, none, 4000⟩] 1 5000 1 .hour).map
        (fun b => (b.checks, b.avg_response_time_ms)) = [(1, some 0)] := by
  with_unfolding_all rfl

/-! C8 -/

theorem dateTrunc_sub_mul (res : Resolution) (a k : ℤ) :
    dateTrunc res (a - k * res.unit) = dateTrunc res a - k * res.unit := by
  cases res <;> simp only [dateTrunc, Resolution.unit] <;> omega

theorem barKey_closed (now : ℤ) (count : ℕ) (res : Resolution) (i : ℕ) :
    barKey now count res i =
      dateTrunc res now - ((count : ℤ) - 1 - (i : ℤ)) * res.unit := by
  unfold barKey
  rw [dateTrunc_sub_mul]
  ring

/-- C8 (amended): _calculate_bars returns `count` contiguous,
resolution-aligned buckets in chronological order ending with the bucket
containing `now`; a fetched record of the server is counted in the bucket
whose start equals its truncated timestamp, in no bucket at all when its
truncated timestamp precedes the first bucket start (which the fetch lower
bound now − count·unit allows), and never in two buckets. -/
theorem bucket_window_alignment (recs : List UptimeRecord)
    (server_id now : ℤ) (count : ℕ) (res : Resolution) :
    (calculate_bars recs server_id now count res).length = count ∧
    (∀ i, i < count →
      ((calculate_bars recs server_id now count res)[i]?).map (fun b => b.date)
        = some (barKey now count res i)) ∧
    (∀ i : ℕ, barKey now count res i =
      dateTrunc res now - ((count : ℤ) - 1 - (i : ℤ)) * res.unit) ∧
    (dateTrunc res now ≤ now ∧ now < dateTrunc res now + res.unit) ∧
    (∀ i j : ℕ, barKey now count res i = barKey now count res j → i = j) ∧
    (∀ r ∈ recs, r.server_id = server_id →
      now - (count : ℤ) * res.unit ≤ r.timestamp →
      (∀ i, i < count →
        (r ∈ groupRecords recs server_id (now - (count : ℤ) * res.unit) res
            (barKey now count res i) ↔
          dateTrunc res r.timestamp = barKey now count res i)) ∧
      ((∃ i : ℕ, i < count ∧
          dateTrunc res r.timestamp = barKey now count res i) ↔
        (barKey now count res 0 ≤ dateTrunc res r.timestamp ∧
          dateTrunc res r.timestamp ≤ dateTrunc res now))) := by
  refine ⟨?_, ?_, barKey_closed now count res, ?_, ?_, ?_⟩
  · simp [calculate_bars]
  · intro i hi
    simp [calculate_bars, List.getElem?_map, List.getElem?_range, hi, mkBar]
  · cases res <;> simp only [dateTrunc, Resolution.unit] <;> omega
  · intro i j hij
    rw [barKey_closed, barKey_closed] at hij
    cases res <;> simp only [Resolution.unit] at hij <;> omega
  · intro r hr hsid hts
    constructor
    · intro i hi
      simp [groupRecords, fetchedRecords, List.mem_filter, hr, hsid, hts]
      intro _
      linarith
    · simp only [barKey_closed]
      cases res with
      | hour =>
          simp only [Resolution.unit, dateTrunc]
          constructor
          · rintro ⟨i, hi, hT⟩
            omega
          · intro hrange
            refine ⟨((r.timestamp - r.timestamp % 3600 -
              (now - now % 3600 - ((count : ℤ) - 1) * 3600)) / 3600).toNat,
              ?_, ?_⟩ <;> omega
      | day =>
          simp only [Resolution.unit, dateTrunc]
          constructor
          · rintro ⟨i, hi, hT⟩
            omega
          · intro hrange
            refine ⟨((r.timestamp - r.timestamp % 86400 -
              (now - now % 86400 - ((count : ℤ) - 1) * 86400)) / 86400).toNat,
              ?_, ?_⟩ <;> omega

theorem bucket_window_alignment_witness :
    ((0 : ℕ) < 2) ∧
      ((calculate_bars [] 1 91000 2 .hour)[0]?).map (fun b => b.date) =
        some (barKey 91000 2 .hour 0) :=
  ⟨by norm_num, (bucket_window_alignment [] 1 91000 2 .hour).2.1 0 (by norm_num)⟩

/-- C8 counterexample: with now = 91000 and two hourly buckets, the record at
timestamp 83800 = now − 2·3600 is fetched (its timestamp equals the window
start) but its truncated timestamp 82800 precedes the first bucket start
86400, so it is counted in none of the returned buckets, whose check counts
both stay 0. -/
theorem bucket_window_alignment_cex :
    ((⟨1, .UP, some 10, 83800⟩ : UptimeRecord).server_id = 1 ∧
      (91000 : ℤ) - (2 : ℤ) * Resolution.hour.unit ≤
        (⟨1, .UP, some 10, 83800⟩ : UptimeRecord).timestamp) ∧
    (calculate_bars [⟨1, .UP, some 10, 83800⟩] 1 91000 2 .hour).map
        (fun b => (b.date, b.checks)) = [(86400, 0), (90000, 0)] ∧
    (∀ i, i < 2 →
      (⟨1, .UP, some 10, 83800⟩ : UptimeRecord) ∉
        groupRecords [⟨1, .UP, some 10, 83800⟩] 1
          ((91000 : ℤ) - (2 : ℤ) * Resolution.hour.unit) .hour
          (barKey 91000 2 .hour i)) :=
  ⟨⟨rfl, by norm_num [Resolution.unit]⟩,
    by with_unfolding_all rfl,
    of_decide_eq_true (by with_unfolding_all rfl)⟩

end Uptime
